import Mathlib

/-!
# zsign command-line driver (`src/zsign.cpp`)

A shallow embedding of `parseArguments` and `main`.  The driver is glue around
collaborators that live in other translation units (`ZLog`, `ZMachO`,
`ZSignAsset`, `ZAppBundle`, the filesystem helpers, `SystemExec`) and in the C
library (`getopt_long`, `atoi`, `getcwd`, `chdir`).  Every answer such a
collaborator gives to the driver is a field of `World`; every call the driver
makes that can change something outside the process is recorded, in program
order, in the `trace` of the `Outcome`.  Console logging and timers are not
recorded.  `main` takes the successive results of `getopt_long`;
`runCommandLine` puts in front of it what `getopt_long` returns for the short
and the long form of an option, given the `long_options` array the driver
builds.
-/

namespace Zsign

/-! ## Strings -/

/-- The single quote character that the command formats put around paths. -/
def quote : String := String.singleton (Char.ofNat 39)

/-- `0 == s.find(p)` of `std::string`: `p` occurs in `s` at position 0. -/
def strFind0 (s p : String) : Bool := p.data.isPrefixOf s.data

/-- Scan of `std::string::rfind`: `i` is the position of the first character of
the remaining text, `acc` the last position seen so far at which `pat` occurs. -/
def rfindFrom (pat : List Char) : List Char → Nat → Option Nat → Option Nat
  | [], i, acc => if pat.isPrefixOf [] then some i else acc
  | c :: cs, i, acc =>
      rfindFrom pat cs (i + 1) (if pat.isPrefixOf (c :: cs) then some i else acc)

/-- `s.rfind(pat)` of `std::string`: the highest position at which `pat` occurs
in `s` as a substring, `none` for `string::npos`. -/
def rfind (s pat : String) : Option Nat := rfindFrom pat.data s.data 0 none

/-- `s.substr(0, pos)` of `std::string`. -/
def substr0 (s : String) (pos : Nat) : String := String.mk (s.data.take pos)

/-! ## Option table (lines 11-40) -/

/-- The `has_arg` constants of `<getopt.h>` used by the table. -/
inductive HasArg
  | no_argument
  | required_argument
deriving DecidableEq, Repr

/-- `struct Option` (lines 11-17). -/
structure ZOption where
  name : String
  argument : HasArg
  value : Char
  description : String
  defaultValue : String
deriving DecidableEq, Repr

/-- The named rows of `options[]` (lines 20-38); the terminating `{}` row is
left out. -/
def options : List ZOption :=
  [ ⟨"debug", .no_argument, 'd', "Generate debug output files. (.zsign_debug folder)", ""⟩,
    ⟨"force", .no_argument, 'f', "Force sign without cache when signing folder.", ""⟩,
    ⟨"verbose", .no_argument, 'v', "Enable verbose output.", ""⟩,
    ⟨"cert", .required_argument, 'c', "Path to certificate file. (PEM or DER format)", ""⟩,
    ⟨"pkey", .required_argument, 'k', "Path to private key or p12 file. (PEM or DER format)", ""⟩,
    ⟨"prov", .required_argument, 'm', "Path to mobile provisioning profile.", ""⟩,
    ⟨"password", .required_argument, 'p', "Password for private key or p12 file.", ""⟩,
    ⟨"bundle_id", .required_argument, 'b', "New bundle id to change.", ""⟩,
    ⟨"bundle_name", .required_argument, 'n', "New bundle name to change.", ""⟩,
    ⟨"bundle_version", .required_argument, 'r', "New bundle version to change.", ""⟩,
    ⟨"entitlements", .required_argument, 'e', "New entitlements to change.", ""⟩,
    ⟨"output", .required_argument, 'o', "Path to output ipa file.", ""⟩,
    ⟨"zip_level", .required_argument, 'z', "Compressed level when outputting the ipa file. (0-9)", "0"⟩,
    ⟨"dylib", .required_argument, 'l', "Path to inject dylib file.", ""⟩,
    ⟨"weak", .no_argument, 'w', "Inject dylib as LC_LOAD_WEAK_DYLIB.", ""⟩,
    ⟨"install", .no_argument, 'i', "Install ipa file using ideviceinstaller command for testing.", ""⟩,
    ⟨"remove_mobileprovision", .no_argument, 'j', "Remove Mobileprovision.", ""⟩,
    ⟨"quiet", .no_argument, 'q', "Quiet operation.", ""⟩,
    ⟨"help", .no_argument, 'h', "Display help (this message).", ""⟩ ]

/-- The `short_options` string built at lines 93-103, up to the NUL that the
terminating row contributes: each letter, followed by `:` when the row takes an
argument. -/
def short_options : String :=
  String.mk (options.flatMap fun o =>
    if o.argument = .required_argument then [o.value, ':'] else [o.value])

/-! ## Arguments (lines 55-82) -/

/-- `struct Arguments` with the values its constructor gives. -/
structure Arguments where
  debug : Bool := false
  force : Bool := false
  verbose : Bool := false
  install : Bool := false
  weakInject : Bool := false
  removeMobileprovision : Bool := false
  zipLevel : Nat := 0
  certFile : String := ""
  pkeyFile : String := ""
  provFile : String := ""
  password : String := ""
  bundleId : String := ""
  bundleVersion : String := ""
  dyLibFile : String := ""
  outputFile : String := ""
  displayName : String := ""
deriving DecidableEq, Repr

/-! ## `atoi` and the `uint32_t` store of line 115 -/

/-- The characters `isspace` accepts. -/
def isSpace (c : Char) : Bool :=
  c = ' ' || c = '\t' || c = '\n' || c = Char.ofNat 11 || c = Char.ofNat 12 || c = '\r'

/-- Value of the leading decimal digits, given the value read so far. -/
def digitsValue : List Char → Nat → Nat
  | [], acc => acc
  | c :: cs, acc => if c.isDigit then digitsValue cs (acc * 10 + (c.toNat - 48)) else acc

/-- Sign and digits of `atoi`, after the leading white space. -/
def atoiSigned : List Char → Int
  | '-' :: cs => - (digitsValue cs 0 : Int)
  | '+' :: cs => (digitsValue cs 0 : Int)
  | cs => (digitsValue cs 0 : Int)

/-- `atoi` of the C library, for values that fit an `int`: leading white
space, an optional sign, then decimal digits up to the first other character. -/
def atoi (s : String) : Int := atoiSigned (s.data.dropWhile isSpace)

/-- Conversion of an `int` to the `uint32_t` field `zipLevel`. -/
def toUInt32 (i : Int) : Nat := (i % (2 ^ 32 : Int)).toNat

/-! ## Collaborators and recorded calls -/

/-- What `ZLog` was last told: nothing yet, `SetLogLever(ZLog::E_DEBUG)` or
`SetLogLever(ZLog::E_NONE)`. -/
inductive LogLevel
  | initial
  | E_DEBUG
  | E_NONE
deriving DecidableEq, Repr

/-- The parameters of `ZSignAsset::Init` at line 185. -/
structure AssetInitCall where
  certFile : String
  pkeyFile : String
  provFile : String
  displayName : String
  password : String
deriving DecidableEq, Repr

/-- The parameters of `ZAppBundle::SignFolder` at line 207, after the asset. -/
structure SignFolderCall where
  folderPath : String
  bundleId : String
  bundleVersion : String
  displayName : String
  dyLibFile : String
  force : Bool
  weakInject : Bool
  enableCache : Bool
  removeMobileprovision : Bool
deriving DecidableEq, Repr

/-- The three command formats `main` hands to `SystemExec`. -/
inductive Command
  | unzip (folderPath filePath : String)
  | archive (outputFile : String)
  | installer (outputFile : String)
deriving DecidableEq, Repr

/-- The command line `SystemExec` runs: the format strings of lines 197, 236
and 249 with their arguments filled in. -/
def Command.text : Command → String
  | .unzip folderPath filePath =>
      "unzip -qq -d " ++ quote ++ folderPath ++ quote ++ " " ++ quote ++ filePath ++ quote
  | .archive outputFile =>
      "7z a -tzip -mx=0 -r " ++ quote ++ outputFile ++ quote ++ " Payload"
  | .installer outputFile =>
      "ideviceinstaller -i " ++ quote ++ outputFile ++ quote

/-- The calls of `main` that act outside the process, with the result where
`main` looks at it. -/
inductive Effect
  | usage
  | CreateFolder (path : String)
  | RemoveFolder (path : String)
  | RemoveFile (path : String)
  | SystemExec (cmd : Command)
  | machoInit (path : String) (ok : Bool)
  | InjectDyLib (weakInject : Bool) (dyLibFile : String)
  | PrintInfo
  | machoFree
  | assetInit (call : AssetInitCall) (ok : Bool)
  | SignFolder (call : SignFolderCall) (ok : Bool)
  | chdir (path : String) (ok : Bool)
  | chdirBack
deriving DecidableEq, Repr

/-- The answers of the collaborators to the calls of one run. -/
structure World where
  /-- `ZLog::IsDebug()` for each thing `ZLog` can have been told. -/
  IsDebug : LogLevel → Bool
  GetCanonicalizePath : String → String
  /-- `IsFileExists` at line 159. -/
  IsFileExists : String → Bool
  IsFolder : String → Bool
  IsZipFile : String → Bool
  /-- `ZMachO::Init`. -/
  machoInit : String → Bool
  /-- `ZSignAsset::Init`. -/
  assetInit : AssetInitCall → Bool
  /-- The value of `timer.Reset()` at line 194. -/
  timerReset : Nat
  /-- Result of `SystemExec`; `main` reads it for the unzip command only. -/
  SystemExec : Command → Bool
  /-- Result of `ZAppBundle::SignFolder` and the `m_strAppFolder` it leaves. -/
  SignFolder : SignFolderCall → Bool × String
  /-- The value of `GetMicroSecond()` at line 216. -/
  GetMicroSecond : Nat
  /-- Whether `getcwd` at line 230 returns non-NULL. -/
  getcwd : Bool
  /-- Whether `chdir` at line 232 returns 0. -/
  chdir : String → Bool
  /-- `IsFileExists` at line 238, after the archive command has run. -/
  IsFileExistsAfterArchive : String → Bool

/-- Return value of `main` (or the status given to `exit`) and the recorded
calls in program order. -/
structure Outcome where
  code : Int
  trace : List Effect
deriving DecidableEq, Repr

/-- Put the calls made so far in front of what the rest of the run does. -/
def Outcome.after (pre : List Effect) (o : Outcome) : Outcome :=
  ⟨o.code, pre ++ o.trace⟩

/-! ## parseArguments (lines 84-137) -/

/-- One pass of the loop body (lines 107-125) for the option letter `opt` and
its `optarg`; `none` is `usage(); exit(0)`. -/
def applyOption (w : World) (args : Arguments) (opt : Char) (optarg : String) :
    Option Arguments :=
  if opt = 'c' then some { args with certFile := optarg }
  else if opt = 'k' then some { args with pkeyFile := optarg }
  else if opt = 'm' then some { args with provFile := optarg }
  else if opt = 'p' then some { args with password := optarg }
  else if opt = 'b' then some { args with bundleId := optarg }
  else if opt = 'r' then some { args with bundleVersion := optarg }
  else if opt = 'l' then some { args with dyLibFile := optarg }
  else if opt = 'o' then some { args with outputFile := w.GetCanonicalizePath optarg }
  else if opt = 'z' then some { args with zipLevel := toUInt32 (atoi optarg) }
  else if opt = 'd' then some { args with debug := true }
  else if opt = 'f' then some { args with force := true }
  else if opt = 'v' then some { args with verbose := true }
  else if opt = 'i' then some { args with install := true }
  else if opt = 'w' then some { args with weakInject := true }
  else if opt = 'j' then some { args with removeMobileprovision := true }
  else if opt = 'h' ∨ opt = '?' then none
  else some args

/-- The `while` loop of line 105 over the successive results of `getopt_long`,
each a pair of the returned letter and `optarg`. -/
def parseLoop (w : World) : Arguments → List (Char × String) → Option Arguments
  | args, [] => some args
  | args, (opt, optarg) :: rest =>
      match applyOption w args opt optarg with
      | none => none
      | some args1 => parseLoop w args1 rest

/-- `parseArguments`: `opts` are the results of `getopt_long` in order and
`operands` is `argv[optind..]` once it has returned -1; `none` is
`usage(); exit(0)`. -/
def parseArguments (w : World) (opts : List (Char × String)) (operands : List String) :
    Option Arguments :=
  match parseLoop w {} opts with
  | none => none
  | some args => if operands = [] then none else some args

/-! ## main (lines 139-262) -/

/-- The level `ZLog` holds after lines 143-149. -/
def logLevelAfterFlags (args : Arguments) : LogLevel :=
  let level := if args.debug then LogLevel.E_DEBUG else LogLevel.initial
  if args.verbose then LogLevel.E_NONE else level

/-- Lines 151-156: the debug folder is created when `ZLog::IsDebug()`. -/
def debugFolder (w : World) (args : Arguments) : List Effect :=
  if w.IsDebug (logLevelAfterFlags args) then [Effect.CreateFolder "./.zsign_debug"] else []

/-- Lines 168-179: the input is a single file that is not an archive. -/
def machoStage (w : World) (args : Arguments) (filePath : String) : Outcome :=
  if w.machoInit filePath then
    if args.dyLibFile ≠ "" then
      ⟨0, [.machoInit filePath true, .InjectDyLib args.weakInject args.dyLibFile, .machoFree]⟩
    else
      ⟨0, [.machoInit filePath true, .PrintInfo, .machoFree]⟩
  else
    ⟨0, [.machoInit filePath false]⟩

/-- The folder name formatted at line 194. -/
def extractionFolder (w : World) : String := "/tmp/zsign_folder_" ++ toString w.timerReset

/-- The file name formatted at line 216. -/
def temporaryOutput (w : World) : String :=
  "/tmp/zsign_temp_" ++ toString w.GetMicroSecond ++ ".ipa"

/-- Lines 248-261: install, removal of the temporary paths, `return 0`
(`success` is true whenever these lines are reached). -/
def cleanupStage (args : Arguments) (outputFile folderPath : String) : Outcome :=
  ⟨0, (if args.install then [Effect.SystemExec (.installer outputFile)] else [])
        ++ (if strFind0 outputFile "/tmp/zsign_tmp_" then [Effect.RemoveFile outputFile] else [])
        ++ (if strFind0 folderPath "/tmp/zsign_folder_" then [Effect.RemoveFolder folderPath]
            else [])⟩

/-- Line 234: the value stored back into `args.zipLevel`. -/
def clampZipLevel (zipLevel : Nat) : Nat := if zipLevel > 9 then 9 else zipLevel

/-- Lines 220-245, entered with a non-empty `outputFile`; `appFolder` is
`bundle.m_strAppFolder`. -/
def archiveStage (w : World) (args : Arguments) (outputFile folderPath appFolder : String) :
    Outcome :=
  match rfind appFolder "/Payload" with
  | none => ⟨-1, []⟩
  | some pos =>
      let strBaseFolder := substr0 appFolder pos
      if w.getcwd then
        if w.chdir strBaseFolder then
          let args1 := { args with zipLevel := clampZipLevel args.zipLevel }
          let calls := [Effect.chdir strBaseFolder true, Effect.RemoveFile outputFile,
            Effect.SystemExec (.archive outputFile), Effect.chdirBack]
          if !w.IsFileExistsAfterArchive outputFile then ⟨-1, calls⟩
          else (cleanupStage args1 outputFile folderPath).after calls
        else (cleanupStage args outputFile folderPath).after [Effect.chdir strBaseFolder false]
      else cleanupStage args outputFile folderPath

/-- Lines 215-261: everything after a successful `SignFolder`. -/
def outputStage (w : World) (args : Arguments) (folderPath appFolder : String) : Outcome :=
  let outputFile :=
    if args.install && args.outputFile = "" then temporaryOutput w else args.outputFile
  if outputFile ≠ "" then archiveStage w args outputFile folderPath appFolder
  else cleanupStage args outputFile folderPath

/-- The argument list of `bundle.SignFolder` at line 207. -/
def signFolderCall (args : Arguments) (folderPath : String) (enableCache : Bool) :
    SignFolderCall :=
  { folderPath := folderPath, bundleId := args.bundleId, bundleVersion := args.bundleVersion,
    displayName := args.displayName, dyLibFile := args.dyLibFile, force := args.force,
    weakInject := args.weakInject, enableCache := enableCache,
    removeMobileprovision := args.removeMobileprovision }

/-- The argument list of `zSignAsset.Init` at line 185. -/
def assetInitCall (args : Arguments) : AssetInitCall :=
  { certFile := args.certFile, pkeyFile := args.pkeyFile, provFile := args.provFile,
    displayName := args.displayName, password := args.password }

/-- Lines 205-213 and what follows. -/
def signStage (w : World) (args : Arguments) (folderPath : String) (enableCache : Bool) :
    Outcome :=
  let call := signFolderCall args folderPath enableCache
  if (w.SignFolder call).1 then
    (outputStage w args folderPath (w.SignFolder call).2).after [Effect.SignFolder call true]
  else ⟨-1, [Effect.SignFolder call false]⟩

/-- Lines 183-203 and what follows: the input is a folder or an archive. -/
def bundleStage (w : World) (args : Arguments) (filePath : String) (isZipFile : Bool) :
    Outcome :=
  let call := assetInitCall args
  if !w.assetInit call then ⟨-1, [Effect.assetInit call false]⟩
  else
    Outcome.after [Effect.assetInit call true] <|
      if isZipFile then
        let args1 := { args with force := true }
        let folderPath := extractionFolder w
        if !w.SystemExec (.unzip folderPath filePath) then
          ⟨-1, [Effect.RemoveFolder folderPath, Effect.SystemExec (.unzip folderPath filePath),
            Effect.RemoveFolder folderPath]⟩
        else
          (signStage w args1 folderPath false).after
            [Effect.RemoveFolder folderPath, Effect.SystemExec (.unzip folderPath filePath)]
      else signStage w args filePath true

/-- Lines 143-262: `main` after `parseArguments` has returned `args`;
`operand` is `argv[optind]`. -/
def mainBody (w : World) (args : Arguments) (operand : String) : Outcome :=
  Outcome.after (debugFolder w args) <|
    let filePath := w.GetCanonicalizePath operand
    if !w.IsFileExists filePath then ⟨-1, []⟩
    else if !w.IsFolder filePath then
      if !w.IsZipFile filePath then machoStage w args filePath
      else bundleStage w args filePath true
    else bundleStage w args filePath false

/-- `main`: `opts` are the successive results of `getopt_long`, `operands` is
`argv[optind..]`.  When `parseArguments` leaves through `usage(); exit(0)` the
outcome is status 0. -/
def main (w : World) (opts : List (Char × String)) (operands : List String) : Outcome :=
  match parseArguments w opts operands with
  | none => ⟨0, [Effect.usage]⟩
  | some args => mainBody w args (operands.headD "")

/-! ## getopt_long and the long option table (lines 91-105) -/

/-- What a `flag` field of `struct option` can hold when nothing was stored in
it: NULL, the address of writable memory, or an address at which a store
faults. -/
inductive FlagPtr
  | null
  | writable
  | unmapped
deriving DecidableEq, Repr

/-- The `struct option` of `<getopt.h>`. -/
structure LongOption where
  name : String
  has_arg : HasArg
  flag : FlagPtr
  val : Char
deriving DecidableEq, Repr

/-- Rows `i`, `i + 1`, … of `long_options` as lines 93-97 leave them: `name`,
`has_arg` and `val` are copied from the table; `flag` is not assigned, so the
row keeps what the storage of the local array held, `stack i`. -/
def longOptionsFrom (stack : Nat → FlagPtr) : Nat → List ZOption → List LongOption
  | _, [] => []
  | i, o :: rest => ⟨o.name, o.argument, stack i, o.value⟩ :: longOptionsFrom stack (i + 1) rest

/-- The array `long_options` of line 91 after the loop of lines 93-103. -/
def long_options (stack : Nat → FlagPtr) : List LongOption := longOptionsFrom stack 0 options

/-- What one call of `getopt_long` finds next on the command line: a letter of
the short form (`-f`), the row of a long name (`--force` is row 1), or
something it does not know; with the argument of the option, if it has one. -/
inductive Recognised
  | short (letter : Char) (optarg : String)
  | long (index : Nat) (optarg : String)
  | unknown
deriving DecidableEq, Repr

/-- Return value and `optarg` of one call of `getopt_long`, as its manual
states them: the letter for a short option; for a long option `val` when the
row's `flag` is NULL, and otherwise `val` is stored through `flag` and 0 is
returned; `?` for anything unknown.  `none` when the store faults. -/
def getopt_long (longopts : List LongOption) : Recognised → Option (Char × String)
  | .short letter optarg =>
      some (if options.any (fun o => o.value == letter) then (letter, optarg) else ('?', ""))
  | .long index optarg =>
      match longopts.get? index with
      | none => some ('?', "")
      | some row =>
          match row.flag with
          | .null => some (row.val, optarg)
          | .writable => some (Char.ofNat 0, optarg)
          | .unmapped => none
  | .unknown => some ('?', "")

/-- The successive results of `getopt_long` over the command line, up to the
first call that faults; the second component tells whether one did. -/
def getoptScan (longopts : List LongOption) : List Recognised → List (Char × String) × Bool
  | [] => ([], false)
  | item :: rest =>
      match getopt_long longopts item with
      | none => ([], true)
      | some result => ((result :: (getoptScan longopts rest).1), (getoptScan longopts rest).2)

/-- The program on a command line given as what `getopt_long` finds on it,
with `stack` the contents of the unassigned `flag` fields.  `none` is a run
ended by the fault of a store through `flag`; a `usage(); exit(0)` reached
before that call still ends the run with status 0. -/
def runCommandLine (w : World) (stack : Nat → FlagPtr) (items : List Recognised)
    (operands : List String) : Option Outcome :=
  match getoptScan (long_options stack) items with
  | (opts, false) => some (main w opts operands)
  | (opts, true) =>
      match parseLoop w {} opts with
      | none => some ⟨0, [Effect.usage]⟩
      | some _ => none

/-! ## Sample runs -/

/-- A machine on which every collaborator succeeds: `/work/App` is a folder,
`/work/in.ipa` an archive, `/work/tool` a Mach-O file, `/work/notes.txt` a file
that is neither; paths are already canonical; `ZLog::IsDebug()` holds exactly
after `SetLogLever(E_DEBUG)`; signing succeeds and reports the application
folder below `Payload`. -/
def sampleWorld : World where
  IsDebug := fun l => l = LogLevel.E_DEBUG
  GetCanonicalizePath := fun p => p
  IsFileExists := fun p => p = "/work/App" || p = "/work/in.ipa" || p = "/work/tool"
    || p = "/work/notes.txt"
  IsFolder := fun p => p = "/work/App"
  IsZipFile := fun p => p = "/work/in.ipa"
  machoInit := fun p => p = "/work/tool"
  assetInit := fun _ => true
  timerReset := 17
  SystemExec := fun _ => true
  SignFolder := fun c => (true, c.folderPath ++ "/Payload/Demo.app")
  GetMicroSecond := 42
  getcwd := true
  chdir := fun _ => true
  IsFileExistsAfterArchive := fun _ => true

/-- The sample machine with an identity that does not load. -/
def identityFailWorld : World :=
  { sampleWorld with assetInit := fun _ => false }

/-- The sample machine with a bundle signer that fails. -/
def signFailWorld : World :=
  { sampleWorld with SignFolder := fun _ => (false, "") }

/-- The sample machine with an application bundle called `PayloadTester.app`. -/
def payloadNameWorld : World :=
  { sampleWorld with SignFolder := fun c => (true, c.folderPath ++ "/Payload/PayloadTester.app") }

/-- The sample machine with a folder `/work/Payloads/Demo.app` that the bundle
signer reports as its own signed root. -/
def payloadsFolderWorld : World :=
  { sampleWorld with
    IsFileExists := fun p => p = "/work/Payloads/Demo.app"
    IsFolder := fun p => p = "/work/Payloads/Demo.app"
    SignFolder := fun c => (true, c.folderPath) }

/-- The sample machine on which `chdir` into the base folder fails. -/
def chdirFailWorld : World :=
  { sampleWorld with chdir := fun _ => false }

/-! ## Path components, following the wording of the package-root contract -/

/-- The pieces of a path between its `/` characters. -/
def pathComponents : List Char → List (List Char)
  | [] => [[]]
  | c :: cs =>
      match pathComponents cs with
      | [] => [[]]
      | x :: xs => if c = '/' then [] :: x :: xs else (c :: x) :: xs

/-- Position, in a list of components, of the last one named exactly
`Payload`; `i` is the position of the head, `acc` the last one found so far. -/
def lastPayloadFrom : List (List Char) → Nat → Option Nat → Option Nat
  | [], _, acc => acc
  | c :: cs, i, acc => lastPayloadFrom cs (i + 1) (if c = "Payload".data then some i else acc)

/-- Following the spec's words, not the code: the parent directory of the last
path component named exactly `Payload`, `none` when no component has that
name. -/
def specBaseFolder (path : String) : Option String :=
  match lastPayloadFrom (pathComponents path.data) 0 none with
  | none => none
  | some i => some (String.mk (List.intercalate ['/'] ((pathComponents path.data).take i)))

/-- Calls that `main` makes only after `SignFolder` has succeeded (the removal
of a folder also happens around the unzip command). -/
def Effect.isOutputCall : Effect → Bool
  | .SystemExec (.installer _) => true
  | .SystemExec (.archive _) => true
  | .RemoveFile _ => true
  | .RemoveFolder _ => true
  | .chdir _ _ => true
  | .chdirBack => true
  | _ => false

/-! ## Shape of a run -/

theorem mem_debugFolder {w : World} {args : Arguments} {e : Effect}
    (h : e ∈ debugFolder w args) : e = Effect.CreateFolder "./.zsign_debug" := by
  unfold debugFolder at h
  split at h <;> simp_all

theorem mem_cleanupStage {args : Arguments} {outputFile folderPath : String} {e : Effect}
    (h : e ∈ (cleanupStage args outputFile folderPath).trace) :
    e = Effect.SystemExec (.installer outputFile) ∨ e = Effect.RemoveFile outputFile
      ∨ e = Effect.RemoveFolder folderPath := by
  simp only [cleanupStage, List.mem_append] at h
  rcases h with (h | h) | h <;> split at h <;> simp_all

theorem mem_archiveStage {w : World} {args : Arguments} {outputFile folderPath appFolder : String}
    {e : Effect} (h : e ∈ (archiveStage w args outputFile folderPath appFolder).trace) :
    e = Effect.SystemExec (.installer outputFile) ∨ e = Effect.RemoveFile outputFile
      ∨ e = Effect.RemoveFolder folderPath ∨ e = Effect.SystemExec (.archive outputFile)
      ∨ e = Effect.chdirBack ∨ ∃ p ok, e = Effect.chdir p ok := by
  unfold archiveStage at h
  split at h
  · simp at h
  · simp only [Outcome.after] at h
    split_ifs at h
    · simp at h
      rcases h with h | h | h | h <;> simp_all
    · simp only [List.mem_append] at h
      rcases h with h | h
      · simp at h
        rcases h with h | h | h | h <;> simp_all
      · rcases mem_cleanupStage h with h | h | h <;> simp_all
    · simp only [List.mem_append] at h
      rcases h with h | h
      · simp_all
      · rcases mem_cleanupStage h with h | h | h <;> simp_all
    · rcases mem_cleanupStage h with h | h | h <;> simp_all

/-- Every call made after a successful `SignFolder` is an install or archive
command, a removal, or a change of directory. -/
theorem mem_outputStage {w : World} {args : Arguments} {folderPath appFolder : String}
    {e : Effect} (h : e ∈ (outputStage w args folderPath appFolder).trace) :
    (∃ o, e = Effect.SystemExec (.installer o)) ∨ (∃ p, e = Effect.RemoveFile p)
      ∨ e = Effect.RemoveFolder folderPath ∨ (∃ o, e = Effect.SystemExec (.archive o))
      ∨ e = Effect.chdirBack ∨ ∃ p ok, e = Effect.chdir p ok := by
  have key : ∀ o, (e ∈ (archiveStage w args o folderPath appFolder).trace
      ∨ e ∈ (cleanupStage args o folderPath).trace) →
      (∃ o, e = Effect.SystemExec (.installer o)) ∨ (∃ p, e = Effect.RemoveFile p)
      ∨ e = Effect.RemoveFolder folderPath ∨ (∃ o, e = Effect.SystemExec (.archive o))
      ∨ e = Effect.chdirBack ∨ ∃ p ok, e = Effect.chdir p ok := by
    intro o ho
    rcases ho with ho | ho
    · rcases mem_archiveStage ho with h | h | h | h | h | h
      · exact Or.inl ⟨_, h⟩
      · exact Or.inr (Or.inl ⟨_, h⟩)
      · exact Or.inr (Or.inr (Or.inl h))
      · exact Or.inr (Or.inr (Or.inr (Or.inl ⟨_, h⟩)))
      · exact Or.inr (Or.inr (Or.inr (Or.inr (Or.inl h))))
      · exact Or.inr (Or.inr (Or.inr (Or.inr (Or.inr h))))
    · rcases mem_cleanupStage ho with h | h | h
      · exact Or.inl ⟨_, h⟩
      · exact Or.inr (Or.inl ⟨_, h⟩)
      · exact Or.inr (Or.inr (Or.inl h))
  unfold outputStage at h
  simp only at h
  split_ifs at h
  all_goals first
    | exact key _ (Or.inl h)
    | exact key _ (Or.inr h)

/-- The two ways `signStage` can go. -/
theorem signStage_shape (w : World) (args : Arguments) (folderPath : String)
    (enableCache : Bool) :
    signStage w args folderPath enableCache
        = ⟨-1, [Effect.SignFolder (signFolderCall args folderPath enableCache) false]⟩
      ∨ ∃ appFolder, signStage w args folderPath enableCache
        = (outputStage w args folderPath appFolder).after
            [Effect.SignFolder (signFolderCall args folderPath enableCache) true] := by
  unfold signStage
  simp only
  split
  · exact Or.inr ⟨_, rfl⟩
  · exact Or.inl rfl

/-- The ways `mainBody` can go up to the call of `SignFolder`. -/
theorem mainBody_shape (w : World) (args : Arguments) (operand : String) :
    mainBody w args operand = ⟨-1, debugFolder w args⟩
      ∨ (w.IsFolder (w.GetCanonicalizePath operand) = false
          ∧ w.IsZipFile (w.GetCanonicalizePath operand) = false
          ∧ mainBody w args operand
            = (machoStage w args (w.GetCanonicalizePath operand)).after (debugFolder w args))
      ∨ mainBody w args operand
          = ⟨-1, debugFolder w args ++ [Effect.assetInit (assetInitCall args) false]⟩
      ∨ mainBody w args operand
          = ⟨-1, debugFolder w args ++ [Effect.assetInit (assetInitCall args) true,
              Effect.RemoveFolder (extractionFolder w),
              Effect.SystemExec (.unzip (extractionFolder w) (w.GetCanonicalizePath operand)),
              Effect.RemoveFolder (extractionFolder w)]⟩
      ∨ (w.IsFolder (w.GetCanonicalizePath operand) = false
          ∧ w.IsZipFile (w.GetCanonicalizePath operand) = true
          ∧ mainBody w args operand
            = (signStage w { args with force := true } (extractionFolder w) false).after
                (debugFolder w args ++ [Effect.assetInit (assetInitCall args) true,
                  Effect.RemoveFolder (extractionFolder w),
                  Effect.SystemExec
                    (.unzip (extractionFolder w) (w.GetCanonicalizePath operand))]))
      ∨ (w.IsFolder (w.GetCanonicalizePath operand) = true
          ∧ mainBody w args operand
            = (signStage w args (w.GetCanonicalizePath operand) true).after
                (debugFolder w args ++ [Effect.assetInit (assetInitCall args) true])) := by
  unfold mainBody bundleStage
  simp only [Outcome.after]
  by_cases h1 : w.IsFileExists (w.GetCanonicalizePath operand) = true
  · by_cases h2 : w.IsFolder (w.GetCanonicalizePath operand) = true
    · by_cases h3 : w.assetInit (assetInitCall args) = true
      · simp [h1, h2, h3]
      · simp [h1, h2, h3]
    · by_cases h4 : w.IsZipFile (w.GetCanonicalizePath operand) = true
      · by_cases h3 : w.assetInit (assetInitCall args) = true
        · by_cases h5 : w.SystemExec
              (.unzip (extractionFolder w) (w.GetCanonicalizePath operand)) = true
          · simp [h1, h2, h3, h4, h5]
          · simp [h1, h2, h3, h4, h5]
        · simp [h1, h2, h3, h4]
      · simp [h1, h2, h4]
  · simp [h1]

theorem outputStage_isOutputCall {w : World} {args : Arguments} {folderPath appFolder : String}
    {e : Effect} (h : e ∈ (outputStage w args folderPath appFolder).trace) :
    e.isOutputCall = true := by
  rcases mem_outputStage h with ⟨o, rfl⟩ | ⟨p, rfl⟩ | rfl | ⟨o, rfl⟩ | rfl | ⟨p, ok, rfl⟩ <;> rfl

theorem mem_machoStage {w : World} {args : Arguments} {filePath : String} {e : Effect}
    (h : e ∈ (machoStage w args filePath).trace) :
    (∃ ok, e = Effect.machoInit filePath ok) ∨ (∃ b d, e = Effect.InjectDyLib b d)
      ∨ e = Effect.PrintInfo ∨ e = Effect.machoFree := by
  unfold machoStage at h
  split_ifs at h <;> simp at h <;> rcases h with h | h | h <;> simp_all

theorem mem_signStage {w : World} {args : Arguments} {folderPath : String} {enableCache : Bool}
    {e : Effect} (h : e ∈ (signStage w args folderPath enableCache).trace) :
    (∃ ok, e = Effect.SignFolder (signFolderCall args folderPath enableCache) ok)
      ∨ e.isOutputCall = true := by
  rcases signStage_shape w args folderPath enableCache with hs | ⟨appFolder, hs⟩
  · rw [hs] at h
    simp at h
    exact Or.inl ⟨_, h⟩
  · rw [hs] at h
    simp only [Outcome.after, List.mem_append, List.mem_singleton] at h
    rcases h with h | h
    · exact Or.inl ⟨_, h⟩
    · exact Or.inr (outputStage_isOutputCall h)

/-- A failing `SignFolder` ends `signStage` on the spot. -/
theorem signStage_failure {w : World} {args : Arguments} {folderPath : String}
    {enableCache : Bool} {call : SignFolderCall}
    (h : Effect.SignFolder call false ∈ (signStage w args folderPath enableCache).trace) :
    signStage w args folderPath enableCache = ⟨-1, [Effect.SignFolder call false]⟩ := by
  rcases signStage_shape w args folderPath enableCache with hs | ⟨appFolder, hs⟩
  · rw [hs] at h ⊢
    simp at h
    rw [h]
  · rw [hs] at h
    simp only [Outcome.after, List.mem_append, List.mem_singleton] at h
    rcases h with h | h
    · simp at h
    · have := outputStage_isOutputCall h
      simp [Effect.isOutputCall] at this

/-- Either `parseArguments` leaves through `usage` or `main` is `mainBody` on
the parsed arguments. -/
theorem main_cases (w : World) (opts : List (Char × String)) (operands : List String) :
    main w opts operands = ⟨0, [Effect.usage]⟩
      ∨ ∃ args, parseArguments w opts operands = some args
          ∧ main w opts operands = mainBody w args (operands.headD "") := by
  unfold main
  cases hp : parseArguments w opts operands with
  | none => exact Or.inl rfl
  | some args => exact Or.inr ⟨args, rfl, rfl⟩

/-- A run in which the identity fails to load consists of the optional debug
folder and the failed `Init`. -/
theorem main_identity_failure {w : World} {opts : List (Char × String)}
    {operands : List String} {call : AssetInitCall}
    (h : Effect.assetInit call false ∈ (main w opts operands).trace) :
    ∃ args, parseArguments w opts operands = some args
      ∧ main w opts operands = ⟨-1, debugFolder w args ++ [Effect.assetInit call false]⟩ := by
  rcases main_cases w opts operands with hm | ⟨args, hp, hm⟩
  · rw [hm] at h
    simp at h
  · refine ⟨args, hp, ?_⟩
    rw [hm] at h ⊢
    have notDbg : Effect.assetInit call false ∉ debugFolder w args := fun hd => by
      have := mem_debugFolder hd
      simp at this
    have notSign : ∀ a f c, Effect.assetInit call false ∉ (signStage w a f c).trace :=
      fun a f c hs => by
        rcases mem_signStage hs with ⟨ok, he⟩ | he
        · simp at he
        · simp [Effect.isOutputCall] at he
    rcases mainBody_shape w args (operands.headD "") with
      hs | ⟨-, -, hs⟩ | hs | hs | ⟨-, -, hs⟩ | ⟨-, hs⟩
    · rw [hs] at h
      exact absurd h notDbg
    · rw [hs] at h
      simp only [Outcome.after, List.mem_append] at h
      rcases h with h | h
      · exact absurd h notDbg
      · rcases mem_machoStage h with ⟨ok, he⟩ | ⟨b, d, he⟩ | he | he <;> simp at he
    · rw [hs] at h ⊢
      simp only [List.mem_append, List.mem_singleton] at h
      rcases h with h | h
      · exact absurd h notDbg
      · simp at h
        rw [h]
    · rw [hs] at h
      simp only [List.mem_append] at h
      rcases h with h | h
      · exact absurd h notDbg
      · simp at h
    · rw [hs] at h
      simp only [Outcome.after, List.mem_append] at h
      rcases h with (h | h) | h
      · exact absurd h notDbg
      · simp at h
      · exact absurd h (notSign _ _ _)
    · rw [hs] at h
      simp only [Outcome.after, List.mem_append] at h
      rcases h with (h | h) | h
      · exact absurd h notDbg
      · simp at h
      · exact absurd h (notSign _ _ _)

/-- A run in which `SignFolder` fails ends with that call; before it come only
the optional debug folder, the successful `Init` and, for an archive, the
removal of the extraction folder and the unzip command. -/
theorem main_sign_failure {w : World} {opts : List (Char × String)}
    {operands : List String} {call : SignFolderCall}
    (h : Effect.SignFolder call false ∈ (main w opts operands).trace) :
    ∃ pre, main w opts operands = ⟨-1, pre ++ [Effect.SignFolder call false]⟩
      ∧ ∀ e ∈ pre, e = Effect.CreateFolder "./.zsign_debug" ∨ (∃ c, e = Effect.assetInit c true)
          ∨ e = Effect.RemoveFolder (extractionFolder w)
          ∨ ∃ f p, e = Effect.SystemExec (.unzip f p) := by
  rcases main_cases w opts operands with hm | ⟨args, hp, hm⟩
  · rw [hm] at h
    simp at h
  · rw [hm] at h ⊢
    have notDbg : Effect.SignFolder call false ∉ debugFolder w args := fun hd => by
      have := mem_debugFolder hd
      simp at this
    rcases mainBody_shape w args (operands.headD "") with
      hs | ⟨-, -, hs⟩ | hs | hs | ⟨-, -, hs⟩ | ⟨-, hs⟩
    · rw [hs] at h
      exact absurd h notDbg
    · rw [hs] at h
      simp only [Outcome.after, List.mem_append] at h
      rcases h with h | h
      · exact absurd h notDbg
      · rcases mem_machoStage h with ⟨ok, he⟩ | ⟨b, d, he⟩ | he | he <;> simp at he
    · rw [hs] at h
      simp only [List.mem_append, List.mem_singleton] at h
      rcases h with h | h
      · exact absurd h notDbg
      · simp at h
    · rw [hs] at h
      simp only [List.mem_append] at h
      rcases h with h | h
      · exact absurd h notDbg
      · simp at h
    · rw [hs] at h ⊢
      simp only [Outcome.after, List.mem_append] at h
      rcases h with (h | h) | h
      · exact absurd h notDbg
      · simp at h
      · rw [signStage_failure h]
        refine ⟨_, rfl, ?_⟩
        intro e he
        simp only [List.mem_append] at he
        rcases he with he | he
        · exact Or.inl (mem_debugFolder he)
        · simp at he
          rcases he with he | he | he
          · exact Or.inr (Or.inl ⟨_, he⟩)
          · exact Or.inr (Or.inr (Or.inl he))
          · exact Or.inr (Or.inr (Or.inr ⟨_, _, he⟩))
    · rw [hs] at h ⊢
      simp only [Outcome.after, List.mem_append] at h
      rcases h with (h | h) | h
      · exact absurd h notDbg
      · simp at h
      · rw [signStage_failure h]
        refine ⟨_, rfl, ?_⟩
        intro e he
        simp only [List.mem_append] at he
        rcases he with he | he
        · exact Or.inl (mem_debugFolder he)
        · simp at he
          exact Or.inr (Or.inl ⟨_, he⟩)

/-- C1: when `bundle.SignFolder` returns false, `main` returns -1 with that
call as its last one; no archive command, no install command and no
`RemoveFile` is issued in the run. -/
theorem sign_failure_no_output (w : World) (opts : List (Char × String))
    (operands : List String) (call : SignFolderCall)
    (h : Effect.SignFolder call false ∈ (main w opts operands).trace) :
    (main w opts operands).code = -1
      ∧ (main w opts operands).trace.getLast? = some (Effect.SignFolder call false)
      ∧ (∀ o, Effect.SystemExec (.archive o) ∉ (main w opts operands).trace)
      ∧ (∀ o, Effect.SystemExec (.installer o) ∉ (main w opts operands).trace)
      ∧ (∀ p, Effect.RemoveFile p ∉ (main w opts operands).trace) := by
  obtain ⟨pre, hm, hpre⟩ := main_sign_failure h
  rw [hm]
  refine ⟨rfl, by simp, ?_, ?_, ?_⟩
  · intro o ho
    simp only [List.mem_append, List.mem_singleton] at ho
    rcases ho with ho | ho
    · rcases hpre _ ho with he | ⟨c, he⟩ | he | ⟨f, p, he⟩ <;> simp at he
    · simp at ho
  · intro o ho
    simp only [List.mem_append, List.mem_singleton] at ho
    rcases ho with ho | ho
    · rcases hpre _ ho with he | ⟨c, he⟩ | he | ⟨f, p, he⟩ <;> simp at he
    · simp at ho
  · intro p ho
    simp only [List.mem_append, List.mem_singleton] at ho
    rcases ho with ho | ho
    · rcases hpre _ ho with he | ⟨c, he⟩ | he | ⟨f, p, he⟩ <;> simp at he
    · simp at ho

/-- Sample run for C1: an archive whose signing fails. -/
theorem sign_failure_no_output_witness :
    Effect.SignFolder (signFolderCall { force := true } "/tmp/zsign_folder_17" false) false
        ∈ (main signFailWorld [] ["/work/in.ipa"]).trace
      ∧ (main signFailWorld [] ["/work/in.ipa"]).code = -1 :=
  ⟨by decide, (sign_failure_no_output signFailWorld [] ["/work/in.ipa"]
    (signFolderCall { force := true } "/tmp/zsign_folder_17" false) (by decide)).1⟩

/-- C2: when `ZSignAsset::Init` fails, `main` returns -1 with that call as its
last one; `SystemExec` (unzip, archive, install) and `SignFolder` are never
called in the run. -/
theorem identity_failure_aborts (w : World) (opts : List (Char × String))
    (operands : List String) (call : AssetInitCall)
    (h : Effect.assetInit call false ∈ (main w opts operands).trace) :
    (main w opts operands).code = -1
      ∧ (main w opts operands).trace.getLast? = some (Effect.assetInit call false)
      ∧ (∀ cmd, Effect.SystemExec cmd ∉ (main w opts operands).trace)
      ∧ (∀ c ok, Effect.SignFolder c ok ∉ (main w opts operands).trace) := by
  obtain ⟨args, -, hm⟩ := main_identity_failure h
  rw [hm]
  refine ⟨rfl, by simp, ?_, ?_⟩
  · intro cmd ho
    simp only [List.mem_append, List.mem_singleton] at ho
    rcases ho with ho | ho
    · have := mem_debugFolder ho
      simp at this
    · simp at ho
  · intro c ok ho
    simp only [List.mem_append, List.mem_singleton] at ho
    rcases ho with ho | ho
    · have := mem_debugFolder ho
      simp at this
    · simp at ho

/-- Sample run for C2: an archive input with an identity that does not load. -/
theorem identity_failure_aborts_witness :
    Effect.assetInit (assetInitCall {}) false
        ∈ (main identityFailWorld [] ["/work/in.ipa"]).trace
      ∧ (main identityFailWorld [] ["/work/in.ipa"]).code = -1 :=
  ⟨by decide, (identity_failure_aborts identityFailWorld [] ["/work/in.ipa"]
    (assetInitCall {}) (by decide)).1⟩

/-! ## Flags and fields that come out of `parseArguments` -/

/-- One link of an `if … then some a else …` chain. -/
theorem chain_step {α : Type} {P : α → Prop} {c : Prop} [Decidable c] {a r : α}
    {rest : Option α} (h : (if c then some a else rest) = some r)
    (h1 : c → P a) (h2 : ¬c → rest = some r → P r) : P r := by
  by_cases hc : c
  · rw [if_pos hc, Option.some.injEq] at h
    exact h ▸ h1 hc
  · rw [if_neg hc] at h
    exact h2 hc h

theorem applyOption_fields {w : World} {args args1 : Arguments} {opt : Char} {optarg : String}
    (h : applyOption w args opt optarg = some args1) :
    args1.force = (args.force || opt == 'f') ∧ args1.debug = (args.debug || opt == 'd')
      ∧ args1.verbose = (args.verbose || opt == 'v')
      ∧ args1.displayName = args.displayName := by
  unfold applyOption at h
  iterate 15
    apply chain_step h
    · intro hc
      subst hc
      simp
    clear h
    intro hc h
  split at h
  · exact absurd h (by simp)
  · rw [Option.some.injEq] at h
    subst h
    simp [*]

theorem parseLoop_fields {w : World} {opts : List (Char × String)} :
    ∀ {args args1 : Arguments}, parseLoop w args opts = some args1 →
      args1.force = (args.force || opts.any fun o => o.1 == 'f')
        ∧ args1.debug = (args.debug || opts.any fun o => o.1 == 'd')
        ∧ args1.verbose = (args.verbose || opts.any fun o => o.1 == 'v')
        ∧ args1.displayName = args.displayName := by
  induction opts with
  | nil =>
      intro args args1 h
      simp only [parseLoop, Option.some.injEq] at h
      subst h
      simp
  | cons o rest ih =>
      intro args args1 h
      obtain ⟨opt, optarg⟩ := o
      simp only [parseLoop] at h
      cases ha : applyOption w args opt optarg with
      | none => simp [ha] at h
      | some a =>
          simp only [ha] at h
          obtain ⟨h1, h2, h3, h4⟩ := ih h
          obtain ⟨g1, g2, g3, g4⟩ := applyOption_fields ha
          simp [h1, h2, h3, h4, g1, g2, g3, g4, Bool.or_assoc]

theorem parseArguments_fields {w : World} {opts : List (Char × String)}
    {operands : List String} {args : Arguments}
    (h : parseArguments w opts operands = some args) :
    args.force = (opts.any fun o => o.1 == 'f') ∧ args.debug = (opts.any fun o => o.1 == 'd')
      ∧ args.verbose = (opts.any fun o => o.1 == 'v') ∧ args.displayName = "" := by
  unfold parseArguments at h
  cases hl : parseLoop w {} opts with
  | none => simp [hl] at h
  | some a =>
      simp only [hl] at h
      split_ifs at h
      simp only [Option.some.injEq] at h
      subst h
      simpa using parseLoop_fields hl

/-! ## Identity failure and the debug folder -/

/-- C3, as stated, fails: with `--debug` on a folder input and an identity that
does not load, `CreateFolder("./.zsign_debug")` runs before `Init` is tried. -/
theorem identity_failure_debug_counterexample :
    main identityFailWorld [('d', "")] ["/work/App"]
      = ⟨-1, [Effect.CreateFolder "./.zsign_debug",
              Effect.assetInit (assetInitCall { debug := true }) false]⟩ := by
  decide

/-- C3, amended: when `ZSignAsset::Init` fails, `main` has invoked no
`RemoveFolder`, no `RemoveFile` and no `SystemExec` command (so neither unzip
nor archive); the only `CreateFolder` it can have invoked is the one of
`./.zsign_debug`, which is invoked exactly when `ZLog::IsDebug()` holds after
the `--debug` and `--verbose` flags have been applied. -/
theorem identity_failure_writes (w : World) (opts : List (Char × String))
    (operands : List String) (call : AssetInitCall)
    (h : Effect.assetInit call false ∈ (main w opts operands).trace) :
    (∀ p, Effect.RemoveFolder p ∉ (main w opts operands).trace)
      ∧ (∀ p, Effect.RemoveFile p ∉ (main w opts operands).trace)
      ∧ (∀ cmd, Effect.SystemExec cmd ∉ (main w opts operands).trace)
      ∧ (∀ p, Effect.CreateFolder p ∈ (main w opts operands).trace → p = "./.zsign_debug")
      ∧ ∃ args, parseArguments w opts operands = some args
          ∧ args.debug = (opts.any fun o => o.1 == 'd')
          ∧ args.verbose = (opts.any fun o => o.1 == 'v')
          ∧ (Effect.CreateFolder "./.zsign_debug" ∈ (main w opts operands).trace
              ↔ w.IsDebug (logLevelAfterFlags args) = true) := by
  obtain ⟨args, hp, hm⟩ := main_identity_failure h
  rw [hm]
  have only : ∀ e ∈ debugFolder w args ++ [Effect.assetInit call false],
      e = Effect.CreateFolder "./.zsign_debug" ∨ e = Effect.assetInit call false := by
    intro e he
    simp only [List.mem_append, List.mem_singleton] at he
    rcases he with he | he
    · exact Or.inl (mem_debugFolder he)
    · exact Or.inr he
  refine ⟨?_, ?_, ?_, ?_, args, hp, (parseArguments_fields hp).2.1,
    (parseArguments_fields hp).2.2.1, ?_⟩
  · intro p hp
    rcases only _ hp with he | he <;> simp at he
  · intro p hp
    rcases only _ hp with he | he <;> simp at he
  · intro p hp
    rcases only _ hp with he | he <;> simp at he
  · intro p hp
    rcases only _ hp with he | he <;> simp at he
    exact he
  · unfold debugFolder
    split <;> simp_all

/-- Sample run for the amended C3: `--debug --verbose` on a folder input with
an identity that does not load. -/
theorem identity_failure_writes_witness :
    Effect.assetInit (assetInitCall { debug := true, verbose := true }) false
        ∈ (main identityFailWorld [('d', ""), ('v', "")] ["/work/App"]).trace
      ∧ ∀ p, Effect.RemoveFolder p
          ∉ (main identityFailWorld [('d', ""), ('v', "")] ["/work/App"]).trace :=
  ⟨by decide, (identity_failure_writes identityFailWorld [('d', ""), ('v', "")] ["/work/App"]
    (assetInitCall { debug := true, verbose := true }) (by decide)).1⟩

/-! ## Injection on the single-file path -/

/-- C8, as stated, fails: on a Mach-O file with `-l`, `main` calls
`InjectDyLib`, then `Free`, and returns 0; no signing call follows. -/
theorem inject_unsigned_counterexample :
    main sampleWorld [('l', "@executable_path/hook.dylib")] ["/work/tool"]
      = ⟨0, [Effect.machoInit "/work/tool" true,
             Effect.InjectDyLib false "@executable_path/hook.dylib",
             Effect.machoFree]⟩ := by
  decide

/-- C8, amended: every run in which `main` itself calls `InjectDyLib` returns 0
with `InjectDyLib` and `Free` as its last two calls; the identity is never
loaded and `SignFolder` is never called in such a run. -/
theorem inject_without_signing (w : World) (opts : List (Char × String))
    (operands : List String) (weakInject : Bool) (dyLibFile : String)
    (h : Effect.InjectDyLib weakInject dyLibFile ∈ (main w opts operands).trace) :
    (main w opts operands).code = 0
      ∧ (∃ pre, (main w opts operands).trace
          = pre ++ [Effect.InjectDyLib weakInject dyLibFile, Effect.machoFree])
      ∧ (∀ c ok, Effect.assetInit c ok ∉ (main w opts operands).trace)
      ∧ (∀ c ok, Effect.SignFolder c ok ∉ (main w opts operands).trace) := by
  rcases main_cases w opts operands with hm | ⟨args, hp, hm⟩
  · rw [hm] at h
    simp at h
  · rw [hm] at h ⊢
    have notDbg : ∀ {e}, e ∈ debugFolder w args → e = Effect.CreateFolder "./.zsign_debug" :=
      fun hd => mem_debugFolder hd
    have notSign : ∀ a f c, Effect.InjectDyLib weakInject dyLibFile ∉ (signStage w a f c).trace :=
      fun a f c hs => by
        rcases mem_signStage hs with ⟨ok, he⟩ | he
        · simp at he
        · simp [Effect.isOutputCall] at he
    rcases mainBody_shape w args (operands.headD "") with
      hs | ⟨-, -, hs⟩ | hs | hs | ⟨-, -, hs⟩ | ⟨-, hs⟩
    · rw [hs] at h
      have := notDbg h
      simp at this
    · rw [hs] at h ⊢
      simp only [Outcome.after, List.mem_append] at h ⊢
      have hmacho : Effect.InjectDyLib weakInject dyLibFile
          ∈ (machoStage w args (w.GetCanonicalizePath (operands.headD ""))).trace := by
        rcases h with h | h
        · have := notDbg h
          simp at this
        · exact h
      have hshape : machoStage w args (w.GetCanonicalizePath (operands.headD ""))
          = ⟨0, [Effect.machoInit (w.GetCanonicalizePath (operands.headD "")) true,
              Effect.InjectDyLib weakInject dyLibFile, Effect.machoFree]⟩ := by
        unfold machoStage at hmacho ⊢
        split_ifs at hmacho ⊢
        · simp at hmacho
          rw [hmacho.1, hmacho.2]
        · simp at hmacho
        · simp at hmacho
      rw [hshape]
      refine ⟨rfl, ⟨debugFolder w args
        ++ [Effect.machoInit (w.GetCanonicalizePath (operands.headD "")) true], by simp⟩, ?_, ?_⟩
      · intro c ok hc
        simp only [List.mem_append] at hc
        rcases hc with hc | hc
        · have := notDbg hc
          simp at this
        · simp at hc
      · intro c ok hc
        simp only [List.mem_append] at hc
        rcases hc with hc | hc
        · have := notDbg hc
          simp at this
        · simp at hc
    · rw [hs] at h
      simp only [List.mem_append, List.mem_singleton] at h
      rcases h with h | h
      · have := notDbg h
        simp at this
      · simp at h
    · rw [hs] at h
      simp only [List.mem_append] at h
      rcases h with h | h
      · have := notDbg h
        simp at this
      · simp at h
    · rw [hs] at h
      simp only [Outcome.after, List.mem_append] at h
      rcases h with (h | h) | h
      · have := notDbg h
        simp at this
      · simp at h
      · exact absurd h (notSign _ _ _)
    · rw [hs] at h
      simp only [Outcome.after, List.mem_append] at h
      rcases h with (h | h) | h
      · have := notDbg h
        simp at this
      · simp at h
      · exact absurd h (notSign _ _ _)

/-- Sample run for the amended C8: weak injection into a Mach-O file. -/
theorem inject_without_signing_witness :
    Effect.InjectDyLib true "hook.dylib"
        ∈ (main sampleWorld [('w', ""), ('l', "hook.dylib")] ["/work/tool"]).trace
      ∧ (main sampleWorld [('w', ""), ('l', "hook.dylib")] ["/work/tool"]).code = 0 :=
  ⟨by decide, (inject_without_signing sampleWorld [('w', ""), ('l', "hook.dylib")]
    ["/work/tool"] true "hook.dylib" (by decide)).1⟩

/-! ## The call of `SignFolder` -/

/-- The two situations in which `SignFolder` is called, with its arguments. -/
theorem main_signFolder_call {w : World} {opts : List (Char × String)}
    {operands : List String} {call : SignFolderCall} {ok : Bool}
    (h : Effect.SignFolder call ok ∈ (main w opts operands).trace) :
    ∃ args, parseArguments w opts operands = some args
      ∧ ((w.IsFolder (w.GetCanonicalizePath (operands.headD "")) = true
            ∧ call = signFolderCall args (w.GetCanonicalizePath (operands.headD "")) true
            ∧ ∀ f p, Effect.SystemExec (.unzip f p) ∉ (main w opts operands).trace)
          ∨ (w.IsFolder (w.GetCanonicalizePath (operands.headD "")) = false
            ∧ w.IsZipFile (w.GetCanonicalizePath (operands.headD "")) = true
            ∧ call = signFolderCall { args with force := true } (extractionFolder w) false)) := by
  rcases main_cases w opts operands with hm | ⟨args, hp, hm⟩
  · rw [hm] at h
    simp at h
  · refine ⟨args, hp, ?_⟩
    rw [hm] at h ⊢
    have notDbg : ∀ {e}, e ∈ debugFolder w args → e = Effect.CreateFolder "./.zsign_debug" :=
      fun hd => mem_debugFolder hd
    have inSign : ∀ {a f c}, Effect.SignFolder call ok ∈ (signStage w a f c).trace →
        call = signFolderCall a f c := fun hs => by
      rcases mem_signStage hs with ⟨ok1, he⟩ | he
      · simp at he
        exact he.1
      · simp [Effect.isOutputCall] at he
    rcases mainBody_shape w args (operands.headD "") with
      hs | ⟨-, -, hs⟩ | hs | hs | ⟨hf, hz, hs⟩ | ⟨hf, hs⟩
    · rw [hs] at h
      have := notDbg h
      simp at this
    · rw [hs] at h
      simp only [Outcome.after, List.mem_append] at h
      rcases h with h | h
      · have := notDbg h
        simp at this
      · rcases mem_machoStage h with ⟨ok, he⟩ | ⟨b, d, he⟩ | he | he <;> simp at he
    · rw [hs] at h
      simp only [List.mem_append, List.mem_singleton] at h
      rcases h with h | h
      · have := notDbg h
        simp at this
      · simp at h
    · rw [hs] at h
      simp only [List.mem_append] at h
      rcases h with h | h
      · have := notDbg h
        simp at this
      · simp at h
    · rw [hs] at h
      simp only [Outcome.after, List.mem_append] at h
      rcases h with (h | h) | h
      · have := notDbg h
        simp at this
      · simp at h
      · exact Or.inr ⟨hf, hz, inSign h⟩
    · rw [hs] at h ⊢
      simp only [Outcome.after, List.mem_append] at h ⊢
      rcases h with (h | h) | h
      · have := notDbg h
        simp at this
      · simp at h
      · refine Or.inl ⟨hf, inSign h, ?_⟩
        intro f p hu
        rcases hu with (hu | hu) | hu
        · have := notDbg hu
          simp at this
        · simp at hu
        · rcases mem_signStage hu with ⟨ok1, he⟩ | he
          · simp at he
          · simp [Effect.isOutputCall] at he

/-- Whenever `SignFolder` is called the input is a folder or an archive; for an
archive the call has `force = true` and `enableCache = false`; for a folder it
has `enableCache = true`, `force` equal to whether `getopt_long` returned the
letter `f`, the folder path itself as `folderPath`, and no unzip command is
issued in the run. -/
theorem signFolder_force_and_cache (w : World) (opts : List (Char × String))
    (operands : List String) (call : SignFolderCall) (ok : Bool)
    (h : Effect.SignFolder call ok ∈ (main w opts operands).trace) :
    (w.IsFolder (w.GetCanonicalizePath (operands.headD "")) = true
        ∨ (w.IsFolder (w.GetCanonicalizePath (operands.headD "")) = false
            ∧ w.IsZipFile (w.GetCanonicalizePath (operands.headD "")) = true))
      ∧ (w.IsFolder (w.GetCanonicalizePath (operands.headD "")) = false
          ∧ w.IsZipFile (w.GetCanonicalizePath (operands.headD "")) = true →
            call.force = true ∧ call.enableCache = false)
      ∧ (w.IsFolder (w.GetCanonicalizePath (operands.headD "")) = true →
            call.enableCache = true
              ∧ call.force = (opts.any fun o => o.1 == 'f')
              ∧ call.folderPath = w.GetCanonicalizePath (operands.headD "")
              ∧ ∀ f p, Effect.SystemExec (.unzip f p) ∉ (main w opts operands).trace) := by
  obtain ⟨args, hp, hcase⟩ := main_signFolder_call h
  rcases hcase with ⟨hf, hc, hu⟩ | ⟨hf, hz, hc⟩
  · refine ⟨Or.inl hf, ?_, ?_⟩
    · intro hfz
      rw [hf] at hfz
      exact absurd hfz.1 (by simp)
    · intro _
      subst hc
      exact ⟨rfl, (parseArguments_fields hp).1, rfl, hu⟩
  · refine ⟨Or.inr ⟨hf, hz⟩, ?_, ?_⟩
    · intro _
      subst hc
      exact ⟨rfl, rfl⟩
    · intro hf1
      rw [hf] at hf1
      exact absurd hf1 (by simp)

/-- Sample run: an archive input without `-f`. -/
theorem signFolder_force_and_cache_witness :
    Effect.SignFolder (signFolderCall { force := true } "/tmp/zsign_folder_17" false) true
        ∈ (main sampleWorld [] ["/work/in.ipa"]).trace
      ∧ (sampleWorld.IsFolder (sampleWorld.GetCanonicalizePath "/work/in.ipa") = true
        ∨ (sampleWorld.IsFolder (sampleWorld.GetCanonicalizePath "/work/in.ipa") = false
            ∧ sampleWorld.IsZipFile (sampleWorld.GetCanonicalizePath "/work/in.ipa") = true)) :=
  ⟨by decide, (signFolder_force_and_cache sampleWorld [] ["/work/in.ipa"]
    (signFolderCall { force := true } "/tmp/zsign_folder_17" false) true (by decide)).1⟩

/-! ## Runs in which the code departs from its documented intent -/

/-- C4: on an existing file that is neither a folder nor an archive and that
`ZMachO::Init` rejects, `main` returns 0. -/
theorem malformed_file_returns_zero :
    main sampleWorld [] ["/work/notes.txt"]
      = ⟨0, [Effect.machoInit "/work/notes.txt" false]⟩ := by
  decide

/-- No sequence of options makes `parseArguments` set `displayName`: the loop
has no branch for the letter `n`. -/
theorem parseArguments_displayName (w : World) (opts : List (Char × String))
    (operands : List String) (args : Arguments)
    (h : parseArguments w opts operands = some args) : args.displayName = "" :=
  (parseArguments_fields h).2.2.2

/-- C5: the table declares `-n` with an argument, yet for
`-b com.example.demo -r 2.0 -n Demo /work/App` the parsed `displayName` is
empty, and `Init` and `SignFolder` are called with the empty name. -/
theorem bundle_name_dropped :
    strFind0 short_options "dfvc:k:m:p:b:n:" = true
      ∧ parseArguments sampleWorld [('b', "com.example.demo"), ('r', "2.0"), ('n', "Demo")]
          ["/work/App"]
        = some { bundleId := "com.example.demo", bundleVersion := "2.0", displayName := "" }
      ∧ main sampleWorld [('b', "com.example.demo"), ('r', "2.0"), ('n', "Demo")] ["/work/App"]
        = ⟨0, [Effect.assetInit ⟨"", "", "", "", ""⟩ true,
               Effect.SignFolder ⟨"/work/App", "com.example.demo", "2.0", "", "", false, false,
                 true, false⟩ true]⟩ := by
  decide

/-- C6: for `-z 5 -o /work/out.ipa /work/App` the parsed level is 5 and line
234 keeps it, yet the archive command that is run asks for level 0. -/
theorem zip_level_ignored :
    parseArguments sampleWorld [('z', "5"), ('o', "/work/out.ipa")] ["/work/App"]
        = some { zipLevel := 5, outputFile := "/work/out.ipa" }
      ∧ clampZipLevel 5 = 5
      ∧ main sampleWorld [('z', "5"), ('o', "/work/out.ipa")] ["/work/App"]
        = ⟨0, [Effect.assetInit ⟨"", "", "", "", ""⟩ true,
               Effect.SignFolder ⟨"/work/App", "", "", "", "", false, false, true, false⟩ true,
               Effect.chdir "/work/App" true,
               Effect.RemoveFile "/work/out.ipa",
               Effect.SystemExec (.archive "/work/out.ipa"),
               Effect.chdirBack]⟩
      ∧ (Command.archive "/work/out.ipa").text
        = "7z a -tzip -mx=0 -r " ++ quote ++ "/work/out.ipa" ++ quote ++ " Payload" := by
  decide

/-- C7: with the signed root `/tmp/zsign_folder_17/Payload/PayloadTester.app`
the parent of the last component named `Payload` is `/tmp/zsign_folder_17`, but
the archive command is run from `/tmp/zsign_folder_17/Payload`; with the signed
root `/work/Payloads/Demo.app` no component is named `Payload`, but the archive
command is run from `/work` and `main` returns 0. -/
theorem payload_marker_substring :
    specBaseFolder "/tmp/zsign_folder_17/Payload/PayloadTester.app"
        = some "/tmp/zsign_folder_17"
      ∧ main payloadNameWorld [('o', "/work/out.ipa")] ["/work/in.ipa"]
        = ⟨0, [Effect.assetInit ⟨"", "", "", "", ""⟩ true,
               Effect.RemoveFolder "/tmp/zsign_folder_17",
               Effect.SystemExec (.unzip "/tmp/zsign_folder_17" "/work/in.ipa"),
               Effect.SignFolder ⟨"/tmp/zsign_folder_17", "", "", "", "", true, false, false,
                 false⟩ true,
               Effect.chdir "/tmp/zsign_folder_17/Payload" true,
               Effect.RemoveFile "/work/out.ipa",
               Effect.SystemExec (.archive "/work/out.ipa"),
               Effect.chdirBack,
               Effect.RemoveFolder "/tmp/zsign_folder_17"]⟩
      ∧ specBaseFolder "/work/Payloads/Demo.app" = none
      ∧ main payloadsFolderWorld [('o', "/work/out.ipa")] ["/work/Payloads/Demo.app"]
        = ⟨0, [Effect.assetInit ⟨"", "", "", "", ""⟩ true,
               Effect.SignFolder ⟨"/work/Payloads/Demo.app", "", "", "", "", false, false, true,
                 false⟩ true,
               Effect.chdir "/work" true,
               Effect.RemoveFile "/work/out.ipa",
               Effect.SystemExec (.archive "/work/out.ipa"),
               Effect.chdirBack]⟩ := by
  decide

/-- The name formatted at line 216 never passes the test of line 252. -/
theorem temporaryOutput_not_removed (w : World) :
    strFind0 (temporaryOutput w) "/tmp/zsign_tmp_" = false := by
  unfold strFind0 temporaryOutput
  rw [String.append_assoc, String.data_append]
  rfl

/-- C10: for `--install` without `--output` on an archive, `main` returns 0;
the temporary output `/tmp/zsign_temp_42.ipa` is passed to `RemoveFile` only
before the archive command writes it, and is not removed afterwards.  When
`chdir` into the base folder fails, `main` still returns 0 and the temporary
output is not passed to `RemoveFile` at all. -/
theorem temporary_output_left_behind :
    main sampleWorld [('i', "")] ["/work/in.ipa"]
        = ⟨0, [Effect.assetInit ⟨"", "", "", "", ""⟩ true,
               Effect.RemoveFolder "/tmp/zsign_folder_17",
               Effect.SystemExec (.unzip "/tmp/zsign_folder_17" "/work/in.ipa"),
               Effect.SignFolder ⟨"/tmp/zsign_folder_17", "", "", "", "", true, false, false,
                 false⟩ true,
               Effect.chdir "/tmp/zsign_folder_17" true,
               Effect.RemoveFile "/tmp/zsign_temp_42.ipa",
               Effect.SystemExec (.archive "/tmp/zsign_temp_42.ipa"),
               Effect.chdirBack,
               Effect.SystemExec (.installer "/tmp/zsign_temp_42.ipa"),
               Effect.RemoveFolder "/tmp/zsign_folder_17"]⟩
      ∧ main chdirFailWorld [('i', "")] ["/work/in.ipa"]
        = ⟨0, [Effect.assetInit ⟨"", "", "", "", ""⟩ true,
               Effect.RemoveFolder "/tmp/zsign_folder_17",
               Effect.SystemExec (.unzip "/tmp/zsign_folder_17" "/work/in.ipa"),
               Effect.SignFolder ⟨"/tmp/zsign_folder_17", "", "", "", "", true, false, false,
                 false⟩ true,
               Effect.chdir "/tmp/zsign_folder_17" false,
               Effect.SystemExec (.installer "/tmp/zsign_temp_42.ipa"),
               Effect.RemoveFolder "/tmp/zsign_folder_17"]⟩ := by
  decide

/-- When no call of `getopt_long` faults, the run is `main` on its results. -/
theorem runCommandLine_of_scan (w : World) (stack : Nat → FlagPtr) (items : List Recognised)
    (operands : List String) (opts : List (Char × String))
    (h : getoptScan (long_options stack) items = (opts, false)) :
    runCommandLine w stack items operands = some (main w opts operands) := by
  unfold runCommandLine
  rw [h]

/-- C9: row 1 of `long_options` is `force` with the letter `f` and a `flag`
that was never assigned.  For `--force /work/App` on a folder, with that
`flag` pointing to writable memory, `getopt_long` returns 0 and `SignFolder`
is called with `force = false`; for `-f /work/App` on the same machine it is
called with `force = true`, as it is for `--force` when the `flag` happens to
be NULL; with a `flag` whose store faults, `--force` ends the run before `main`
does anything. -/
theorem long_force_flag_lost :
    (long_options fun _ => FlagPtr.writable).get? 1
        = some ⟨"force", .no_argument, .writable, 'f'⟩
      ∧ getoptScan (long_options fun _ => FlagPtr.writable) [.long 1 ""]
        = ([(Char.ofNat 0, "")], false)
      ∧ runCommandLine sampleWorld (fun _ => FlagPtr.writable) [.long 1 ""] ["/work/App"]
        = some ⟨0, [Effect.assetInit ⟨"", "", "", "", ""⟩ true,
                    Effect.SignFolder ⟨"/work/App", "", "", "", "", false, false, true,
                      false⟩ true]⟩
      ∧ runCommandLine sampleWorld (fun _ => FlagPtr.writable) [.short 'f' ""] ["/work/App"]
        = some ⟨0, [Effect.assetInit ⟨"", "", "", "", ""⟩ true,
                    Effect.SignFolder ⟨"/work/App", "", "", "", "", true, false, true,
                      false⟩ true]⟩
      ∧ runCommandLine sampleWorld (fun _ => FlagPtr.null) [.long 1 ""] ["/work/App"]
        = some ⟨0, [Effect.assetInit ⟨"", "", "", "", ""⟩ true,
                    Effect.SignFolder ⟨"/work/App", "", "", "", "", true, false, true,
                      false⟩ true]⟩
      ∧ runCommandLine sampleWorld (fun _ => FlagPtr.unmapped) [.long 1 ""] ["/work/App"]
        = none := by
  decide

end Zsign
